import Mathlib

/-!
# Verification of the LSTMCell language model

Shallow embedding of the repository's recurrent language model: the LSTM
cell mathematics (`CustomLSTMCell`, `HyperLSTMCell`) and the model assembly
in `model.py` (embedding, dropout, two-layer unroll, projection with
optional batch normalization, sequence loss, gradient-descent training step
with optional clipping by global norm).

Vectors are functions `Fin n → ℝ`; matrices are Mathlib matrices over ℝ;
the activations are the real `tanh`, the logistic `sigmoid` and `softmax`.
`tf.nn.dropout` is embedded with its uniform draw made explicit: the kept
mask is `⌊p + u⌋` for a uniform `u ∈ [0,1)`, and the kept entries are
scaled by `1/p`.
-/

noncomputable section

namespace LSTMCell

/-- Real vectors of a fixed length, the shape of one hidden/memory state. -/
abbrev Vec (n : ℕ) := Fin n → ℝ

/-- The logistic sigmoid `1 / (1 + exp (-x))`. -/
def sigmoid (x : ℝ) : ℝ := 1 / (1 + Real.exp (-x))

/-- Elementwise sigmoid on a vector. -/
def sigmoidV {n : ℕ} (v : Vec n) : Vec n := fun i => sigmoid (v i)

/-- Elementwise hyperbolic tangent on a vector. -/
def tanhV {n : ℕ} (v : Vec n) : Vec n := fun i => Real.tanh (v i)

/-- Embedding of `tf.nn.dropout`: each entry is kept when the uniform draw
`u i ∈ [0,1)` satisfies `⌊p + u i⌋ = 1`, and kept entries are rescaled by
the inverse keep-probability `1/p`. -/
def dropout {n : ℕ} (p : ℝ) (u : Vec n) (x : Vec n) : Vec n :=
  fun i => x i * ((⌊p + u i⌋ : ℤ) : ℝ) / p

/-- A uniform-noise vector is valid when every entry lies in `[0, 1)`. -/
def ValidNoise {n : ℕ} (u : Vec n) : Prop := ∀ i, 0 ≤ u i ∧ u i < 1

/-- Mean of the entries of a vector (layer-norm statistics). -/
def vecMean {n : ℕ} (v : Vec n) : ℝ := (∑ i, v i) / n

/-- Population variance of the entries of a vector (layer-norm statistics). -/
def vecVar {n : ℕ} (v : Vec n) : ℝ := (∑ i, (v i - vecMean v) ^ 2) / n

/-- Epsilon guarding the layer-norm denominator. -/
def lnEps : ℝ := 1 / 10 ^ 12

/-- Layer normalization: per-sample mean/variance normalization over the
hidden dimension followed by a learned scale `gam` and shift `bet`. -/
def layerNorm {n : ℕ} (gam bet v : Vec n) : Vec n :=
  fun i => gam i * ((v i - vecMean v) / Real.sqrt (vecVar v + lnEps)) + bet i

/-- Modelled from the spec: the parameters of `CustomLSTMCell`
(`cells.py`, not shipped under `src/`).  The single affine transform on the
concatenation `[x_t, h_{t-1}]` producing the four gate blocks
(0 = input `i`, 1 = forget `f`, 2 = output `o`, 3 = candidate `g`) is
represented by its two column blocks `Wx` (acting on `x_t`) and `Wh`
(acting on `h_{t-1}`) plus the bias `b`; `lnGamma`/`lnBeta` are the learned
scale/shift of the five layer-norm sites (four gate blocks and the memory
normalization of step 6). -/
structure LSTMParams (inDim hid : ℕ) where
  Wx : Fin 4 → Matrix (Fin hid) (Fin inDim) ℝ
  Wh : Fin 4 → Matrix (Fin hid) (Fin hid) ℝ
  b : Fin 4 → Vec hid
  lnGamma : Fin 5 → Vec hid
  lnBeta : Fin 5 → Vec hid

/-- Gate pre-activation of gate `g` before the bias is added: the `g`-th
block of the affine transform applied to the concatenation `[x, h]`. -/
def gatePre {inDim hid : ℕ} (p : LSTMParams inDim hid) (x : Vec inDim) (h : Vec hid)
    (g : Fin 4) : Vec hid :=
  (p.Wx g).mulVec x + (p.Wh g).mulVec h

/-- Modelled from the spec: steps 2–7 of the `CustomLSTMCell` algorithm,
shared between the standard cell and the main cell of `HyperLSTMCell`:
optional layer norm on each biased pre-activation block, sigmoid on
`i`,`f`,`o`, tanh on `g`, recurrent dropout on the candidate, the memory
update `c' = f ⊙ c + i ⊙ g`, optional layer norm of the memory before the
output nonlinearity, and the hidden output `h' = o ⊙ tanh c'`. -/
def gateOutput {inDim hid : ℕ} (p : LSTMParams inDim hid) (ln : Bool) (kp : ℝ)
    (u : Vec hid) (pre : Fin 4 → Vec hid) (c : Vec hid) : Vec hid × Vec hid :=
  let pre' : Fin 4 → Vec hid :=
    if ln then fun g => layerNorm (p.lnGamma g.castSucc) (p.lnBeta g.castSucc) (pre g) else pre
  let iGate := sigmoidV (pre' 0)
  let fGate := sigmoidV (pre' 1)
  let oGate := sigmoidV (pre' 2)
  let gCand := dropout kp u (tanhV (pre' 3))
  let cNew := fGate * c + iGate * gCand
  let cOut := if ln then layerNorm (p.lnGamma 4) (p.lnBeta 4) cNew else cNew
  (oGate * tanhV cOut, cNew)

/-- Modelled from the spec: one `CustomLSTMCell` transition (4.1): biased
gate pre-activations from `[x, h]`, then the shared gate pipeline; the cell
output is the new hidden `h'`, the new state is `(h', c')`. -/
def customStep {inDim hid : ℕ} (ln : Bool) (kp : ℝ) (u : Vec hid)
    (p : LSTMParams inDim hid) (x : Vec inDim) (h c : Vec hid) :
    Vec hid × (Vec hid × Vec hid) :=
  let res := gateOutput p ln kp u (fun g => gatePre p x h g + p.b g) c
  (res.1, (res.1, res.2))

/-- Modelled from the spec: the parameters of `HyperLSTMCell` — the main
cell's `LSTMParams`, the auxiliary cell's `LSTMParams` over the
concatenated input `[x_t, h_{t-1}]`, and the per-gate projection of the
auxiliary hidden state through the low-rank embedding (`embW`, `embB`, an
affine map to dimension `embH`) followed by the linear map `scaleW` to the
scaling vector of length `hid`. -/
structure HyperParams (inDim hid hidH embH : ℕ) where
  main : LSTMParams inDim hid
  aux : LSTMParams (inDim + hid) hidH
  embW : Fin 4 → Matrix (Fin embH) (Fin hidH) ℝ
  embB : Fin 4 → Vec embH
  scaleW : Fin 4 → Matrix (Fin hid) (Fin embH) ℝ

/-- Modelled from the spec: the scaling vector for gate `g` obtained by
projecting the auxiliary hidden state through the learned embedding. -/
def hyperScaling {inDim hid hidH embH : ℕ} (p : HyperParams inDim hid hidH embH)
    (hH : Vec hidH) (g : Fin 4) : Vec hid :=
  (p.scaleW g).mulVec ((p.embW g).mulVec hH + p.embB g)

/-- Modelled from the spec: one `HyperLSTMCell` transition (4.2): the
auxiliary cell runs one `CustomLSTMCell` transition on `[x, h]`, its new
hidden is projected to the four scaling vectors, the main cell's gate
pre-activations are multiplied elementwise by `(1 + scaling)` before the
bias is added, and the main cell continues with the shared gate pipeline.
The output is the main hidden only; the state carries both substates. -/
def hyperStep {inDim hid hidH embH : ℕ} (ln : Bool) (kp : ℝ)
    (uAux : Vec hidH) (uMain : Vec hid) (p : HyperParams inDim hid hidH embH)
    (x : Vec inDim) (s : (Vec hid × Vec hid) × (Vec hidH × Vec hidH)) :
    Vec hid × ((Vec hid × Vec hid) × (Vec hidH × Vec hidH)) :=
  let auxRes := customStep ln kp uAux p.aux (Fin.append x s.1.1) s.2.1 s.2.2
  let pre : Fin 4 → Vec hid :=
    fun g => (1 + hyperScaling p auxRes.1 g) * gatePre p.main x s.1.1 g + p.main.b g
  let res := gateOutput p.main ln kp uMain pre s.1.2
  (res.1, ((res.1, res.2), auxRes.2))

/-- All-zero `CustomLSTMCell` parameters, used to instantiate theorems. -/
def zeroLSTMParams (inDim hid : ℕ) : LSTMParams inDim hid :=
  ⟨fun _ => 0, fun _ => 0, fun _ => 0, fun _ => 0, fun _ => 0⟩

/-- All-zero `HyperLSTMCell` parameters, used to instantiate theorems. -/
def zeroHyperParams (inDim hid hidH embH : ℕ) : HyperParams inDim hid hidH embH :=
  ⟨zeroLSTMParams inDim hid, zeroLSTMParams (inDim + hid) hidH,
    fun _ => 0, fun _ => 0, fun _ => 0⟩

/-- Embedding of `tf.where(self.is_train, self._keep_prob, 1.0)`
(`model.py` lines 100–101): the effective dropout keep-probability. -/
def effKeepProb (isTrain : Bool) (kp : ℝ) : ℝ := if isTrain then kp else 1

/-- Embedding of `tf.where(self.is_train, self._weight_decay, 0)`
(`model.py` line 102): the effective weight-decay coefficient. -/
def effWeightDecay (isTrain : Bool) (wd : ℝ) : ℝ := if isTrain then wd else 0

/-- Softmax over the vocabulary axis (`tf.nn.softmax`). -/
def softmax {V : ℕ} (v : Vec V) : Vec V :=
  fun j => Real.exp (v j) / ∑ k, Real.exp (v k)

/-- Per-token cross-entropy of a logit row against an integer target:
`-log softmax(logits)[target]`, the summand of
`tf.contrib.seq2seq.sequence_loss` with unit weights. -/
def crossEntropy {V : ℕ} (logits : Vec V) (tgt : Fin V) : ℝ :=
  - Real.log (softmax logits tgt)

/-- Embedding of `tf.contrib.seq2seq.sequence_loss` with unit weights,
`average_across_timesteps=False` and `average_across_batch=True`
(`model.py` lines 156–160): for each timestep, the batch-averaged
cross-entropy. -/
def seqLoss {B T V : ℕ} (logits : Fin B → Fin T → Vec V)
    (tgts : Fin B → Fin T → Fin V) : Fin T → ℝ :=
  fun t => (∑ b, crossEntropy (logits b t) (tgts b t)) / (B : ℝ)

/-- Embedding of `tf.nn.l2_loss` on one flattened variable: half the sum
of squared entries. -/
def l2Half (v : List ℝ) : ℝ := (v.map fun x => x ^ 2).sum / 2

/-- Embedding of `tf.add_n([tf.nn.l2_loss(v) for v in t_vars])`
(`model.py` line 163). -/
def totalL2 (tvars : List (List ℝ)) : ℝ := (tvars.map l2Half).sum

/-- Embedding of `self._loss` (`model.py` line 165): the per-timestep batch
losses summed over timesteps, plus the effective weight decay times the
summed `l2_loss` of all trainable variables. -/
def modelLoss {B T V : ℕ} (isTrain : Bool) (wd : ℝ)
    (logits : Fin B → Fin T → Vec V) (tgts : Fin B → Fin T → Fin V)
    (tvars : List (List ℝ)) : ℝ :=
  (∑ t, seqLoss logits tgts t) + effWeightDecay isTrain wd * totalL2 tvars

/-- Sum of squared entries of one flattened gradient tensor. -/
def sumSq (v : List ℝ) : ℝ := (v.map fun x => x ^ 2).sum

/-- Global L2 norm of a gradient list (`tf.global_norm`): the square root
of the total sum of squares. -/
def globalNorm (gs : List (List ℝ)) : ℝ := Real.sqrt ((gs.map sumSq).sum)

/-- Embedding of `tf.clip_by_global_norm` (`model.py` line 173): every
gradient entry is scaled by `clip / max (globalNorm gs) clip`. -/
def clipByGlobalNorm (clip : ℝ) (gs : List (List ℝ)) : List (List ℝ) :=
  gs.map fun g => g.map fun x => x * (clip / max (globalNorm gs) clip)

/-- Embedding of one `tf.train.GradientDescentOptimizer` update: each
parameter moves by `-lr` times its gradient. -/
def sgdUpdate (lr : ℝ) (ps gs : List (List ℝ)) : List (List ℝ) :=
  List.zipWith (fun pv gv => List.zipWith (fun t x => t - lr * x) pv gv) ps gs

/-- Embedding of the optimizer wiring (`model.py` lines 168–176): the
`lr_decay` placeholder exists but the optimizer is built from the fixed
learning rate alone; with a clipping threshold the gradients are clipped
by global norm before the descent step, otherwise they are applied raw. -/
def trainStep (lr lrDecay : ℝ) (clip : Option ℝ) (ps gs : List (List ℝ)) :
    List (List ℝ) :=
  match clip with
  | some c => sgdUpdate lr ps (clipByGlobalNorm c gs)
  | none => sgdUpdate lr ps gs

/-- The dimensions a successfully constructed `LSTMLanguageModel` holds:
the four required keys, plus the two hyper-network keys when the
`hypernets` variant is selected. -/
structure ModelDims where
  numSteps : ℕ
  vocabSize : ℕ
  embeddingSize : ℕ
  nHidden : ℕ
  hyperDims : Option (ℕ × ℕ)

/-- The config keys `LSTMLanguageModel.__init__` and `_build_model` read
during construction: `n_hidden` (lines 78/82), `n_hidden_hyper` and
`n_embedding_hyper` for the `hypernets` variant (line 79), and
`num_steps`, `vocab_size`, `embedding_size` (lines 96–97, 106). -/
def requiredKeys (hyper : Bool) : List String :=
  if hyper then
    ["num_steps", "vocab_size", "embedding_size", "n_hidden",
     "n_hidden_hyper", "n_embedding_hyper"]
  else
    ["num_steps", "vocab_size", "embedding_size", "n_hidden"]

/-- Embedding of the construction-time config reads: each
`self._config[key]` lookup is a fallible dictionary access (a Python
`KeyError` aborts construction), so the constructor succeeds only when
every required key is present, and it copies the values verbatim. -/
def buildDims (hyper : Bool) (cfg : String → Option ℕ) : Option ModelDims :=
  if hyper then
    match cfg "n_hidden", cfg "n_hidden_hyper", cfg "n_embedding_hyper",
        cfg "num_steps", cfg "vocab_size", cfg "embedding_size" with
    | some nh, some nhh, some neh, some ns, some vs, some es =>
        some ⟨ns, vs, es, nh, some (nhh, neh)⟩
    | _, _, _, _, _, _ => none
  else
    match cfg "n_hidden", cfg "num_steps", cfg "vocab_size", cfg "embedding_size" with
    | some nh, some ns, some vs, some es => some ⟨ns, vs, es, nh, none⟩
    | _, _, _, _ => none

/-- A concrete config with `num_steps` missing, instantiating C7. -/
def cfgMissingSteps : String → Option ℕ :=
  fun k => if k = "num_steps" then none else some 1

/-- Embedding of `_full_connected` (`model.py` lines 19–32) on one row:
multiply by the weight matrix, then add the bias variable only when the
`bias` flag is set (batch norm removes the bias, per the function's own
doc comment). -/
def fullConnected {n m : ℕ} (w : Matrix (Fin m) (Fin n) ℝ) (b : Vec m)
    (bias : Bool) (x : Vec n) : Vec m :=
  if bias then w.mulVec x + b else w.mulVec x

/-- The bias variable's declared value at construction:
`tf.get_variable("bias", initializer=[0.0] * weight_shape[-1])`. -/
def fcBiasZero (m : ℕ) : Vec m := fun _ => 0

/-- The per-feature state of `tf.contrib.layers.batch_norm`: learned
shift `beta` and scale `gamma`, and the accumulated moving statistics used
outside training mode. -/
structure BNState (m : ℕ) where
  gamma : Vec m
  beta : Vec m
  movMean : Vec m
  movVar : Vec m

/-- The variance epsilon of `tf.contrib.layers.batch_norm`. -/
def bnEps : ℝ := 1 / 1000

/-- Per-feature mean over the merged batch axis. -/
def batchMean {I : Type} [Fintype I] {m : ℕ} (xs : I → Vec m) : Vec m :=
  fun i => (∑ j, xs j i) / (Fintype.card I : ℝ)

/-- Per-feature population variance over the merged batch axis. -/
def batchVar {I : Type} [Fintype I] {m : ℕ} (xs : I → Vec m) : Vec m :=
  fun i => (∑ j, (xs j i - batchMean xs i) ^ 2) / (Fintype.card I : ℝ)

/-- Embedding of `tf.contrib.layers.batch_norm` output: in training mode
the rows are normalized by the batch statistics, in inference mode by the
accumulated moving statistics, then scaled and shifted. -/
def batchNorm {I : Type} [Fintype I] {m : ℕ} (bn : BNState m) (isTrain : Bool)
    (xs : I → Vec m) : I → Vec m :=
  fun j i =>
    bn.gamma i * ((xs j i - (if isTrain then batchMean xs i else bn.movMean i))
        / Real.sqrt ((if isTrain then batchVar xs i else bn.movVar i) + bnEps))
      + bn.beta i

/-- Embedding of the logit projection (`model.py` lines 142–148): with a
batch-norm decay configured, the bias-free fully connected layer followed
by batch normalization; otherwise the fully connected layer with its bias. -/
def projectLogits {I : Type} [Fintype I] {H V : ℕ} (bnDecay : Option ℝ)
    (bn : BNState V) (isTrain : Bool) (w : Matrix (Fin V) (Fin H) ℝ) (b : Vec V)
    (xs : I → Vec H) : I → Vec V :=
  match bnDecay with
  | some _ => batchNorm bn isTrain (fun j => fullConnected w b false (xs j))
  | none => fun j => fullConnected w b true (xs j)

/-- A recurrent cell as `_build_model` consumes one: a state type, a
per-step noise type for the cell's recurrent dropout, the zero state used
at timestep 0, a validity predicate for the uniform draws, and the
transition, which receives the effective dropout keep-probability
(`model.py` line 116 hands `__keep_prob_r` to each cell). -/
structure RecCell (E H : ℕ) where
  S : Type
  N : Type
  zeroState : S
  validN : N → Prop
  step : ℝ → N → Vec E → S → Vec H × S

/-- `CustomLSTMCell` packaged as a recurrent cell. -/
@[reducible]
def customCell {E H : ℕ} (ln : Bool) (p : LSTMParams E H) : RecCell E H where
  S := Vec H × Vec H
  N := Vec H
  zeroState := (0, 0)
  validN := ValidNoise
  step := fun kp u x s => customStep ln kp u p x s.1 s.2

/-- `HyperLSTMCell` packaged as a recurrent cell: the state carries the
main and the auxiliary `(h, c)` pairs, the noise the two recurrent dropout
draws. -/
@[reducible]
def hyperCell {E H HH EH : ℕ} (ln : Bool) (p : HyperParams E H HH EH) :
    RecCell E H where
  S := (Vec H × Vec H) × (Vec HH × Vec HH)
  N := Vec HH × Vec H
  zeroState := ((0, 0), (0, 0))
  validN := fun u => ValidNoise u.1 ∧ ValidNoise u.2
  step := fun kp u x s => hyperStep ln kp u.1 u.2 p x s

/-- Embedding of `tf.nn.rnn_cell.MultiRNNCell` on two layers (`model.py`
line 119): layer 1's output feeds layer 2, the states are paired, and
`zero_state` pairs the layers' zero states. -/
@[reducible]
def stackTwo {E H : ℕ} (c1 : RecCell E H) (c2 : RecCell H H) : RecCell E H where
  S := c1.S × c2.S
  N := c1.N × c2.N
  zeroState := (c1.zeroState, c2.zeroState)
  validN := fun u => c1.validN u.1 ∧ c2.validN u.2
  step := fun kp u x s =>
    let r1 := c1.step kp u.1 x s.1
    let r2 := c2.step kp u.2 r1.1 s.2
    (r2.1, (r1.2, r2.2))

/-- State of the unrolled cell before timestep `t`; the state at timestep
0 is the cell's zero state (`model.py` lines 122–123). -/
def stateIter {E H : ℕ} (cell : RecCell E H) (kp : ℝ) (inp : ℕ → Vec E)
    (noi : ℕ → cell.N) : ℕ → cell.S
  | 0 => cell.zeroState
  | t + 1 => (cell.step kp (noi t) (inp t) (stateIter cell kp inp noi t)).2

/-- Output of the unrolled cell at timestep `t` (`model.py` line 127). -/
def outAt {E H : ℕ} (cell : RecCell E H) (kp : ℝ) (inp : ℕ → Vec E)
    (noi : ℕ → cell.N) (t : ℕ) : Vec H :=
  (cell.step kp (noi t) (inp t) (stateIter cell kp inp noi t)).1

/-- Embedding lookup: the token's row of the embedding table
(`tf.nn.embedding_lookup`, `model.py` line 107). -/
def embedRow {V E : ℕ} (emb : Matrix (Fin V) (Fin E) ℝ) (tok : Fin V) : Vec E :=
  fun i => emb tok i

/-- The per-batch-element, per-timestep uniform draws of the dropout
sites of one forward pass: the embedding dropout (line 110), the
recurrent dropout inside the cells (line 116), and the pre-projection
dropout (line 141). -/
structure Noises (B E H : ℕ) (N : Type) where
  uEmb : Fin B → ℕ → Vec E
  uCell : Fin B → ℕ → N
  uOut : Fin B → ℕ → Vec H

/-- All dropout draws of a forward pass are uniform draws in `[0, 1)`. -/
def ValidNoises {B E H : ℕ} (cell : RecCell E H) (ns : Noises B E H cell.N) : Prop :=
  ∀ (b : Fin B) (t : ℕ),
    ValidNoise (ns.uEmb b t) ∧ cell.validN (ns.uCell b t) ∧ ValidNoise (ns.uOut b t)

/-- One batch element's dropped-out embedded input sequence
(`model.py` lines 107–110). -/
def unrollInputs {B V E : ℕ} (emb : Matrix (Fin V) (Fin E) ℝ) (kpE : ℝ)
    (toks : Fin B → ℕ → Fin V) (uEmb : Fin B → ℕ → Vec E) (b : Fin B) :
    ℕ → Vec E :=
  fun t => dropout kpE (uEmb b t) (embedRow emb (toks b t))

/-- The forward pass of `_build_model` (`model.py` lines 96–152): embed
and drop out the tokens, unroll the stacked cell from the zero state for
the `T` timesteps, drop out the collected outputs, project them to
vocabulary logits (with optional batch norm over the merged batch×time
axis), and apply softmax. Every dropout site uses the effective
keep-probability `tf.where(is_train, keep_prob, 1.0)`. -/
def forward {B T V E H : ℕ} (cell : RecCell E H) (emb : Matrix (Fin V) (Fin E) ℝ)
    (w : Matrix (Fin V) (Fin H) ℝ) (bOut : Vec V) (bnD : Option ℝ) (bn : BNState V)
    (kp : ℝ) (isTrain : Bool) (toks : Fin B → ℕ → Fin V) (ns : Noises B E H cell.N) :
    Fin B → Fin T → Vec V :=
  fun b t =>
    softmax (projectLogits bnD bn isTrain w bOut
      (fun bt : Fin B × Fin T =>
        dropout (effKeepProb isTrain kp) (ns.uOut bt.1 bt.2.val)
          (outAt cell (effKeepProb isTrain kp)
            (unrollInputs emb (effKeepProb isTrain kp) toks ns.uEmb bt.1)
            (ns.uCell bt.1) bt.2.val))
      (b, t))

/-- A cell whose transition at effective keep-probability 1 is independent
of the (valid) dropout draw. -/
def StepNoiseFree {E H : ℕ} (cell : RecCell E H) : Prop :=
  ∀ (u u' : cell.N) (x : Vec E) (s : cell.S),
    cell.validN u → cell.validN u' → cell.step 1 u x s = cell.step 1 u' x s

/-- The two cell classes `LSTMLanguageModel.__init__` can select. -/
inductive CellKind
  | custom
  | hyper
  deriving DecidableEq

/-- Embedding of the cell-type selection (`model.py` lines 75–82):
`type_of_lstm == "hypernets"` selects `HyperLSTMCell`, anything else
`CustomLSTMCell`; one class is chosen for the whole model. -/
def configuredCellKind (typeOfLstm : Option String) : CellKind :=
  if typeOfLstm = some "hypernets" then CellKind.hyper else CellKind.custom

/-- Embedding of the stacking loop `for i in range(1, 3)` (`model.py`
lines 114–118): one cell of the configured kind per loop iteration. -/
def stackedKinds (typeOfLstm : Option String) : List CellKind :=
  (List.range' 1 2).map fun _ => configuredCellKind typeOfLstm

/-- All-zero dropout draws for the two-layer `CustomLSTMCell` stack in
dimension one. -/
def zeroNoisesC : Noises 1 1 1 (Vec 1 × Vec 1) :=
  ⟨fun _ _ => 0, fun _ _ => 0, fun _ _ => 0⟩

/-- All-zero dropout draws for the two-layer `HyperLSTMCell` stack in
dimension one. -/
def zeroNoisesH : Noises 1 1 1 ((Vec 1 × Vec 1) × (Vec 1 × Vec 1)) :=
  ⟨fun _ _ => 0, fun _ _ => 0, fun _ _ => 0⟩

/-- A default batch-norm state: scale 1, shift 0, moving mean 0, moving
variance 1 (the `tf.contrib.layers.batch_norm` initial values). -/
def bnDefault (m : ℕ) : BNState m := ⟨fun _ => 1, fun _ => 0, fun _ => 0, fun _ => 1⟩

/-- Claim C5 as stated: on every model — any cell parameters, projection
weights and batch-norm configuration — and for every configured
keep-probability `p`, the training-mode forward pass at keep-probability 1
equals the inference-mode forward pass at keep-probability `p`, for all
valid dropout draws.  (Stated over the standard-cell models, an instance
of the claim's quantification over models.) -/
def dropoutModeEquivClaim : Prop :=
  ∀ (B T V E H : ℕ) (ln : Bool) (p1 : LSTMParams E H) (p2 : LSTMParams H H)
    (emb : Matrix (Fin V) (Fin E) ℝ) (w : Matrix (Fin V) (Fin H) ℝ) (bOut : Vec V)
    (bnD : Option ℝ) (bn : BNState V) (p : ℝ) (toks : Fin B → ℕ → Fin V)
    (ns ns' : Noises B E H ((stackTwo (customCell ln p1) (customCell ln p2)).N)),
    ValidNoises _ ns → ValidNoises _ ns' →
    forward (T := T) (stackTwo (customCell ln p1) (customCell ln p2))
        emb w bOut bnD bn 1 true toks ns
      = forward (T := T) (stackTwo (customCell ln p1) (customCell ln p2))
        emb w bOut bnD bn p false toks ns'

/-- Layer-2 parameters for the C5 counterexample: all weights and biases
zero except the candidate-gate bias, which is 1. -/
def cexP2 : LSTMParams 1 1 :=
  ⟨fun _ => 0, fun _ => 0, fun g => if g = 3 then (fun _ => 1) else 0,
    fun _ => 0, fun _ => 0⟩

/-- Projection weights for the C5 counterexample: vocabulary entry 0
reads the hidden unit, entry 1 reads nothing. -/
def cexW : Matrix (Fin 2) (Fin 1) ℝ := fun v _ => if v = 0 then 1 else 0

/-- The hidden output the counterexample's second layer produces. -/
def cexY : ℝ := Real.tanh (Real.tanh 1 / 2) / 2

/-- The memory value the counterexample's second layer produces. -/
def cexC : ℝ := Real.tanh 1 / 2

/-- The counterexample's second-layer output as a vector. -/
def cexYVec : Vec 1 := fun _ => cexY

/-- The counterexample's second-layer memory as a vector. -/
def cexCVec : Vec 1 := fun _ => cexC

/-- The counterexample's two-layer stacked cell. -/
@[reducible]
def cexCell : RecCell 1 1 :=
  stackTwo (customCell false (zeroLSTMParams 1 1)) (customCell false cexP2)

/-- Claim C1: for every input and every auxiliary state whose projected
scaling vectors are all zero, one `HyperLSTMCell` transition of the main
cell's `(h, c)` produces exactly the same output and main state as one
`CustomLSTMCell` transition on the same `(h, c)` and `x` with the main
cell's weights: the multiplier `(1 + 0) = 1` leaves every gate
pre-activation unchanged. -/
theorem hyper_zero_scaling_matches_custom {inDim hid hidH embH : ℕ}
    (ln : Bool) (kp : ℝ) (uAux : Vec hidH) (uMain : Vec hid)
    (p : HyperParams inDim hid hidH embH) (x : Vec inDim) (h c : Vec hid)
    (hH cH : Vec hidH)
    (hz : ∀ g, hyperScaling p
      (customStep ln kp uAux p.aux (Fin.append x h) hH cH).1 g = 0) :
    (hyperStep ln kp uAux uMain p x ((h, c), (hH, cH))).1
      = (customStep ln kp uMain p.main x h c).1
    ∧ (hyperStep ln kp uAux uMain p x ((h, c), (hH, cH))).2.1
      = (customStep ln kp uMain p.main x h c).2 := by
  have hpre : (fun g => (1 + hyperScaling p
        (customStep ln kp uAux p.aux (Fin.append x h) hH cH).1 g)
          * gatePre p.main x h g + p.main.b g)
      = fun g => gatePre p.main x h g + p.main.b g := by
    funext g
    rw [hz g]
    simp
  have hkey : gateOutput p.main ln kp uMain
      (fun g => (1 + hyperScaling p
        (customStep ln kp uAux p.aux (Fin.append x h) hH cH).1 g)
          * gatePre p.main x h g + p.main.b g) c
      = gateOutput p.main ln kp uMain (fun g => gatePre p.main x h g + p.main.b g) c := by
    rw [hpre]
  exact ⟨congrArg Prod.fst hkey, congrArg (fun r => (r.1, r.2)) hkey⟩

/-- Witness for C1 at concrete all-zero parameters in dimension one. -/
theorem hyper_zero_scaling_matches_custom_witness :
    (∀ g, hyperScaling (zeroHyperParams 1 1 1 1)
        (customStep false 1 0 (zeroHyperParams 1 1 1 1).aux
          (Fin.append (0 : Vec 1) (0 : Vec 1)) 0 0).1 g = 0)
    ∧ ((hyperStep false 1 0 0 (zeroHyperParams 1 1 1 1) 0 ((0, 0), (0, 0))).1
        = (customStep false 1 0 (zeroHyperParams 1 1 1 1).main 0 0 0).1
      ∧ (hyperStep false 1 0 0 (zeroHyperParams 1 1 1 1) 0 ((0, 0), (0, 0))).2.1
        = (customStep false 1 0 (zeroHyperParams 1 1 1 1).main 0 0 0).2) := by
  have hz : ∀ g, hyperScaling (zeroHyperParams 1 1 1 1)
      (customStep false 1 0 (zeroHyperParams 1 1 1 1).aux
        (Fin.append (0 : Vec 1) (0 : Vec 1)) 0 0).1 g = 0 := by
    intro g
    simp [hyperScaling, zeroHyperParams, Matrix.zero_mulVec]
  exact ⟨hz, hyper_zero_scaling_matches_custom false 1 0 0
    (zeroHyperParams 1 1 1 1) 0 0 0 0 0 hz⟩

/-- Claim C2: with layer normalization disabled and all gate biases zero,
one `CustomLSTMCell` transition from the all-zero state on the all-zero
input yields the zero hidden output (and zero new memory): the candidate is
`tanh 0 = 0`, so `c' = 0` and `h' = sigmoid 0 ⊙ tanh 0 = 0`. -/
theorem custom_zero_state_zero_input_zero_output {inDim hid : ℕ}
    (kp : ℝ) (u : Vec hid) (p : LSTMParams inDim hid)
    (hb : ∀ g, p.b g = 0) :
    (customStep false kp u p 0 0 0).1 = 0
    ∧ (customStep false kp u p 0 0 0).2.2 = 0 := by
  have hpre : ∀ g, gatePre p (0 : Vec inDim) (0 : Vec hid) g + p.b g = 0 := by
    intro g
    rw [hb g]
    simp [gatePre, Matrix.mulVec_zero]
  constructor
  all_goals
    funext i
    simp [customStep, gateOutput, hpre, dropout, tanhV, sigmoidV, Real.tanh_zero]

/-- Witness for C2 at concrete all-zero parameters in dimension one. -/
theorem custom_zero_state_zero_input_zero_output_witness :
    (∀ g, (zeroLSTMParams 1 1).b g = 0)
    ∧ ((customStep false 1 0 (zeroLSTMParams 1 1) 0 0 0).1 = 0
      ∧ (customStep false 1 0 (zeroLSTMParams 1 1) 0 0 0).2.2 = 0) := by
  have hb : ∀ g, (zeroLSTMParams 1 1).b g = 0 := fun _ => rfl
  exact ⟨hb, custom_zero_state_zero_input_zero_output 1 0 (zeroLSTMParams 1 1) hb⟩

/-- Claim C3: the exposed scalar loss is the per-timestep cross-entropy
against the targets, averaged over the batch and summed over the
timesteps, plus the weight-decay coefficient times the summed L2 terms of
the trainable parameters; with the training flag false that coefficient is
0, so the inference loss is the pure sequence cross-entropy. -/
theorem model_loss_formula {B T V : ℕ} (isTrain : Bool) (wd : ℝ)
    (logits : Fin B → Fin T → Vec V) (tgts : Fin B → Fin T → Fin V)
    (tvars : List (List ℝ)) :
    modelLoss isTrain wd logits tgts tvars
      = (∑ t : Fin T, (∑ b : Fin B, -Real.log (softmax (logits b t) (tgts b t))) / (B : ℝ))
        + (if isTrain then wd else 0) * totalL2 tvars
    ∧ modelLoss false wd logits tgts tvars
      = ∑ t : Fin T, (∑ b : Fin B, -Real.log (softmax (logits b t) (tgts b t))) / (B : ℝ) := by
  constructor <;> simp [modelLoss, seqLoss, crossEntropy, effWeightDecay]

theorem sumSq_nonneg (v : List ℝ) : 0 ≤ sumSq v := by
  refine List.sum_nonneg ?_
  intro x hx
  rcases List.mem_map.1 hx with ⟨y, _, rfl⟩
  exact sq_nonneg y

theorem sumSq_map_mul (k : ℝ) (v : List ℝ) :
    sumSq (v.map fun x => x * k) = sumSq v * k ^ 2 := by
  induction v with
  | nil => simp [sumSq]
  | cons x t ih =>
      simp only [sumSq, List.map_cons, List.sum_cons] at ih ⊢
      rw [ih]
      ring

theorem totalSumSq_scale (k : ℝ) (gs : List (List ℝ)) :
    (((gs.map fun g => g.map fun x => x * k).map sumSq)).sum
      = (gs.map sumSq).sum * k ^ 2 := by
  induction gs with
  | nil => simp
  | cons g t ih =>
      simp only [List.map_cons, List.sum_cons]
      rw [ih, sumSq_map_mul]
      ring

theorem totalSumSq_nonneg (gs : List (List ℝ)) : 0 ≤ (gs.map sumSq).sum := by
  refine List.sum_nonneg ?_
  intro x hx
  rcases List.mem_map.1 hx with ⟨y, _, rfl⟩
  exact sumSq_nonneg y

/-- Claim C4: for a configured nonnegative threshold `c`, the global L2
norm of the clipped gradients never exceeds `c`, and the training step is
plain gradient descent on the clipped gradients; with no threshold
configured, the same gradient-descent update is applied to the raw
gradients. -/
theorem clip_then_descend (lr lrd c : ℝ) (hc : 0 ≤ c) (ps gs : List (List ℝ)) :
    globalNorm (clipByGlobalNorm c gs) ≤ c
    ∧ trainStep lr lrd (some c) ps gs = sgdUpdate lr ps (clipByGlobalNorm c gs)
    ∧ trainStep lr lrd none ps gs = sgdUpdate lr ps gs := by
  refine ⟨?_, rfl, rfl⟩
  have hS0 : 0 ≤ (gs.map sumSq).sum := totalSumSq_nonneg gs
  have hn0 : 0 ≤ globalNorm gs := Real.sqrt_nonneg _
  have hmax0 : 0 ≤ max (globalNorm gs) c := le_trans hc (le_max_right _ _)
  have hk0 : 0 ≤ c / max (globalNorm gs) c := div_nonneg hc hmax0
  have hclip : globalNorm (clipByGlobalNorm c gs)
      = globalNorm gs * (c / max (globalNorm gs) c) := by
    show Real.sqrt
        (((gs.map fun g => g.map fun x => x * (c / max (globalNorm gs) c)).map sumSq).sum)
      = _
    rw [totalSumSq_scale, Real.sqrt_mul hS0, Real.sqrt_sq hk0]
    rfl
  rw [hclip]
  by_cases hm : max (globalNorm gs) c = 0
  · have hn' : globalNorm gs = 0 :=
      le_antisymm (hm ▸ le_max_left (globalNorm gs) c) hn0
    simpa [hn'] using hc
  · have hle : globalNorm gs * (c / max (globalNorm gs) c)
        ≤ max (globalNorm gs) c * (c / max (globalNorm gs) c) :=
      mul_le_mul_of_nonneg_right (le_max_left _ _) hk0
    have heq : max (globalNorm gs) c * (c / max (globalNorm gs) c) = c := by
      rw [mul_comm, div_mul_cancel₀ c hm]
    exact le_trans hle (le_of_eq heq)

/-- Witness for C4 at threshold 1 and the single gradient `[3, 4]` of norm 5. -/
theorem clip_then_descend_witness :
    globalNorm (clipByGlobalNorm 1 [[3, 4]]) ≤ 1
    ∧ trainStep 1 1 (some 1) [[0, 0]] [[3, 4]]
        = sgdUpdate 1 [[0, 0]] (clipByGlobalNorm 1 [[3, 4]])
    ∧ trainStep 1 1 none [[0, 0]] [[3, 4]] = sgdUpdate 1 [[0, 0]] [[3, 4]] :=
  clip_then_descend 1 1 1 (by norm_num) [[0, 0]] [[3, 4]]

/-- Claim C8: the `lr_decay` input is never consumed by the optimizer, so
two training steps that differ only in the supplied `lr_decay` perform
the identical parameter update. -/
theorem lr_decay_not_consumed (lr d1 d2 : ℝ) (clip : Option ℝ)
    (ps gs : List (List ℝ)) :
    trainStep lr d1 clip ps gs = trainStep lr d2 clip ps gs := rfl

/-- Claim C7: a config missing any required key makes construction fail
(`buildDims` returns `none`), and a successful construction copies every
dimension verbatim from the config — no default is substituted. -/
theorem config_missing_key_fails (hyper : Bool) (cfg : String → Option ℕ) :
    ((∃ k ∈ requiredKeys hyper, cfg k = none) → buildDims hyper cfg = none)
    ∧ (∀ d, buildDims hyper cfg = some d →
        cfg "num_steps" = some d.numSteps
        ∧ cfg "vocab_size" = some d.vocabSize
        ∧ cfg "embedding_size" = some d.embeddingSize
        ∧ cfg "n_hidden" = some d.nHidden
        ∧ (hyper = true → d.hyperDims ≠ none
            ∧ cfg "n_hidden_hyper" = Option.map Prod.fst d.hyperDims
            ∧ cfg "n_embedding_hyper" = Option.map Prod.snd d.hyperDims)) := by
  constructor
  · rintro ⟨k, hk, hnone⟩
    cases hyper <;> simp only [requiredKeys] at hk <;> simp at hk
    · rcases hk with rfl | rfl | rfl | rfl <;>
        (simp only [buildDims]
         split <;> try split
         all_goals simp_all)
    · rcases hk with rfl | rfl | rfl | rfl | rfl | rfl <;>
        (simp only [buildDims]
         split <;> try split
         all_goals simp_all)
  · intro d hd
    cases hyper
    all_goals simp only [buildDims] at hd
    all_goals (split at hd <;> try split at hd)
    all_goals try simp only [Option.some.injEq] at hd
    all_goals try subst d
    all_goals simp_all

/-- Witness for C7: the missing `num_steps` key makes construction of the
standard-variant model fail. -/
theorem config_missing_key_fails_witness : buildDims false cfgMissingSteps = none :=
  (config_missing_key_fails false cfgMissingSteps).1
    ⟨"num_steps", by simp [requiredKeys], by simp [cfgMissingSteps]⟩

/-- Claim C9: with a batch-norm decay configured the projection to logits
contains no bias term — the bias value is never consumed and batch norm is
applied directly to the matrix product — while without batch norm the
projection adds the trainable bias, whose declared value at construction
is the zero vector. -/
theorem projection_bias_usage {I : Type} [Fintype I] {H V : ℕ} (dcy : ℝ)
    (bn : BNState V) (isTrain : Bool) (w : Matrix (Fin V) (Fin H) ℝ)
    (b b' : Vec V) (xs : I → Vec H) :
    projectLogits (some dcy) bn isTrain w b xs
        = projectLogits (some dcy) bn isTrain w b' xs
    ∧ projectLogits (some dcy) bn isTrain w b xs
        = batchNorm bn isTrain (fun j => w.mulVec (xs j))
    ∧ projectLogits none bn isTrain w b xs = (fun j => w.mulVec (xs j) + b)
    ∧ fcBiasZero V = 0 := by
  refine ⟨?_, ?_, ?_, rfl⟩ <;> simp [projectLogits, fullConnected]

/-- With keep-probability 1 every valid uniform draw keeps every entry
(`⌊1 + u⌋ = 1` for `u ∈ [0,1)`) and the rescaling by `1/1` is trivial, so
dropout is the identity. -/
theorem dropout_one {n : ℕ} (u x : Vec n) (hu : ValidNoise u) :
    dropout 1 u x = x := by
  funext i
  have h0 := (hu i).1
  have h1 := (hu i).2
  have hf : ⌊(1 : ℝ) + u i⌋ = 1 := by
    rw [Int.floor_eq_iff]
    constructor <;> push_cast <;> linarith
  simp [dropout, hf]

theorem gateOutput_noise_indep {inDim hid : ℕ} (p : LSTMParams inDim hid)
    (ln : Bool) (u u' : Vec hid) (pre : Fin 4 → Vec hid) (c : Vec hid)
    (hu : ValidNoise u) (hu' : ValidNoise u') :
    gateOutput p ln 1 u pre c = gateOutput p ln 1 u' pre c := by
  simp only [gateOutput]
  rw [dropout_one u _ hu, dropout_one u' _ hu']

theorem customStep_noise_indep {inDim hid : ℕ} (ln : Bool) (u u' : Vec hid)
    (p : LSTMParams inDim hid) (x : Vec inDim) (h c : Vec hid)
    (hu : ValidNoise u) (hu' : ValidNoise u') :
    customStep ln 1 u p x h c = customStep ln 1 u' p x h c := by
  simp only [customStep]
  rw [gateOutput_noise_indep p ln u u' _ _ hu hu']

theorem hyperStep_noise_indep {inDim hid hidH embH : ℕ} (ln : Bool)
    (uA uA' : Vec hidH) (uM uM' : Vec hid) (p : HyperParams inDim hid hidH embH)
    (x : Vec inDim) (s : (Vec hid × Vec hid) × (Vec hidH × Vec hidH))
    (hA : ValidNoise uA) (hA' : ValidNoise uA')
    (hM : ValidNoise uM) (hM' : ValidNoise uM') :
    hyperStep ln 1 uA uM p x s = hyperStep ln 1 uA' uM' p x s := by
  simp only [hyperStep]
  rw [customStep_noise_indep ln uA uA' p.aux (Fin.append x s.1.1) s.2.1 s.2.2 hA hA']
  rw [gateOutput_noise_indep p.main ln uM uM' _ _ hM hM']

theorem customCell_noise_free {E H : ℕ} (ln : Bool) (p : LSTMParams E H) :
    StepNoiseFree (customCell ln p) := by
  intro u u' x s hu hu'
  exact customStep_noise_indep ln u u' p x s.1 s.2 hu hu'

theorem hyperCell_noise_free {E H HH EH : ℕ} (ln : Bool) (p : HyperParams E H HH EH) :
    StepNoiseFree (hyperCell ln p) := by
  intro u u' x s hu hu'
  exact hyperStep_noise_indep ln u.1 u'.1 u.2 u'.2 p x s hu.1 hu'.1 hu.2 hu'.2

theorem stackTwo_noise_free {E H : ℕ} (c1 : RecCell E H) (c2 : RecCell H H)
    (h1 : StepNoiseFree c1) (h2 : StepNoiseFree c2) :
    StepNoiseFree (stackTwo c1 c2) := by
  intro u u' x s hu hu'
  simp only [stackTwo]
  rw [h1 u.1 u'.1 x s.1 hu.1 hu'.1]
  rw [h2 u.2 u'.2 _ s.2 hu.2 hu'.2]

/-- For a noise-free cell, the unrolled states and outputs at effective
keep-probability 1 agree for any two valid noise sequences and equal
input sequences. -/
theorem unroll_noise_indep {E H : ℕ} (cell : RecCell E H)
    (hcell : StepNoiseFree cell) (inp inp' : ℕ → Vec E)
    (noi noi' : ℕ → cell.N) (hinp : ∀ t, inp t = inp' t)
    (hn : ∀ t, cell.validN (noi t)) (hn' : ∀ t, cell.validN (noi' t)) :
    ∀ t, stateIter cell 1 inp noi t = stateIter cell 1 inp' noi' t
      ∧ outAt cell 1 inp noi t = outAt cell 1 inp' noi' t := by
  intro t
  induction t with
  | zero =>
      refine ⟨rfl, ?_⟩
      unfold outAt
      rw [hinp 0, hcell (noi 0) (noi' 0) (inp' 0) _ (hn 0) (hn' 0)]
      rfl
  | succ t ih =>
      have hstep : cell.step 1 (noi (t + 1)) (inp (t + 1)) (stateIter cell 1 inp noi (t + 1))
          = cell.step 1 (noi' (t + 1)) (inp' (t + 1)) (stateIter cell 1 inp' noi' (t + 1)) := by
        have hs : stateIter cell 1 inp noi (t + 1) = stateIter cell 1 inp' noi' (t + 1) := by
          unfold stateIter
          rw [hinp t, ih.1, hcell (noi t) (noi' t) (inp' t) _ (hn t) (hn' t)]
        rw [hinp (t + 1), hs,
          hcell (noi (t + 1)) (noi' (t + 1)) (inp' (t + 1)) _ (hn (t + 1)) (hn' (t + 1))]
      constructor
      · unfold stateIter
        rw [hinp t, ih.1, hcell (noi t) (noi' t) (inp' t) _ (hn t) (hn' t)]
      · unfold outAt
        rw [hstep]

/-- Master lemma: two forward passes of a noise-free cell whose effective
keep-probabilities are both 1 coincide for any valid dropout draws,
provided either batch norm is not configured or the two training flags
agree (batch-norm statistics are the only other mode-dependent piece). -/
theorem forward_effkp_one_indep {B T V E H : ℕ} (cell : RecCell E H)
    (hcell : StepNoiseFree cell) (emb : Matrix (Fin V) (Fin E) ℝ)
    (w : Matrix (Fin V) (Fin H) ℝ) (bOut : Vec V) (bnD : Option ℝ) (bn : BNState V)
    (kp kp' : ℝ) (isT isT' : Bool) (toks : Fin B → ℕ → Fin V)
    (ns ns' : Noises B E H cell.N)
    (hns : ValidNoises cell ns) (hns' : ValidNoises cell ns')
    (h1 : effKeepProb isT kp = 1) (h2 : effKeepProb isT' kp' = 1)
    (hbn : bnD = none ∨ isT = isT') :
    forward (T := T) cell emb w bOut bnD bn kp isT toks ns
      = forward (T := T) cell emb w bOut bnD bn kp' isT' toks ns' := by
  have hout : ∀ (b : Fin B) (t : ℕ),
      dropout (effKeepProb isT kp) (ns.uOut b t)
          (outAt cell (effKeepProb isT kp) (unrollInputs emb (effKeepProb isT kp) toks ns.uEmb b) (ns.uCell b) t)
        = dropout (effKeepProb isT' kp') (ns'.uOut b t)
          (outAt cell (effKeepProb isT' kp') (unrollInputs emb (effKeepProb isT' kp') toks ns'.uEmb b) (ns'.uCell b) t) := by
    intro b t
    rw [h1, h2]
    have hinp : ∀ t, unrollInputs emb 1 toks ns.uEmb b t = unrollInputs emb 1 toks ns'.uEmb b t := by
      intro t
      unfold unrollInputs
      rw [dropout_one _ _ ((hns b t).1), dropout_one _ _ ((hns' b t).1)]
    have hu := unroll_noise_indep cell hcell _ _ (ns.uCell b) (ns'.uCell b) hinp
      (fun t => (hns b t).2.1) (fun t => (hns' b t).2.1) t
    rw [hu.2, dropout_one _ _ ((hns b t).2.2), dropout_one _ _ ((hns' b t).2.2)]
  have hrows : (fun bt : Fin B × Fin T =>
      dropout (effKeepProb isT kp) (ns.uOut bt.1 bt.2.val)
        (outAt cell (effKeepProb isT kp) (unrollInputs emb (effKeepProb isT kp) toks ns.uEmb bt.1) (ns.uCell bt.1) bt.2.val))
      = fun bt : Fin B × Fin T =>
      dropout (effKeepProb isT' kp') (ns'.uOut bt.1 bt.2.val)
        (outAt cell (effKeepProb isT' kp') (unrollInputs emb (effKeepProb isT' kp') toks ns'.uEmb bt.1) (ns'.uCell bt.1) bt.2.val) := by
    funext bt
    exact hout bt.1 bt.2.val
  funext b t
  unfold forward
  rw [hrows]
  rcases hbn with hnone | hsame
  · subst hnone
    simp only [projectLogits]
  · subst hsame
    rfl

/-- Claim C6: the assembler stacks exactly two recurrent layers, all of
the single configured cell kind, and the multi-cell state at timestep 0
is the all-zero state of every layer (for both cell kinds). -/
theorem two_layer_stack_zero_state {E H HH EH : ℕ} (typeOfLstm : Option String)
    (ln : Bool) (p1 : LSTMParams E H) (p2 : LSTMParams H H)
    (q1 : HyperParams E H HH EH) (q2 : HyperParams H H HH EH)
    (kp : ℝ) (inp : ℕ → Vec E)
    (noi : ℕ → ((stackTwo (customCell ln p1) (customCell ln p2)).N))
    (moi : ℕ → ((stackTwo (hyperCell ln q1) (hyperCell ln q2)).N)) :
    (stackedKinds typeOfLstm).length = 2
    ∧ (∀ k ∈ stackedKinds typeOfLstm, k = configuredCellKind typeOfLstm)
    ∧ stateIter (stackTwo (customCell ln p1) (customCell ln p2)) kp inp noi 0
        = ((0, 0), (0, 0))
    ∧ stateIter (stackTwo (hyperCell ln q1) (hyperCell ln q2)) kp inp moi 0
        = (((0, 0), (0, 0)), ((0, 0), (0, 0))) := by
  refine ⟨rfl, ?_, rfl, rfl⟩
  intro k hk
  simp [stackedKinds] at hk
  exact hk

/-- Witness for C6 instantiating the membership hypothesis at the default
(standard) cell type. -/
theorem two_layer_stack_zero_state_witness :
    CellKind.custom = configuredCellKind none
    ∧ stateIter (stackTwo (customCell false (zeroLSTMParams 1 1))
        (customCell false (zeroLSTMParams 1 1))) 1 (fun _ => 0) (fun _ => 0) 0
        = ((0, 0), (0, 0)) :=
  ⟨(two_layer_stack_zero_state none false (zeroLSTMParams 1 1) (zeroLSTMParams 1 1)
      (zeroHyperParams 1 1 1 1) (zeroHyperParams 1 1 1 1) 1 (fun _ => 0)
      (fun _ => 0) (fun _ => 0)).2.1 CellKind.custom (by decide),
   (two_layer_stack_zero_state none false (zeroLSTMParams 1 1) (zeroLSTMParams 1 1)
      (zeroHyperParams 1 1 1 1) (zeroHyperParams 1 1 1 1) 1 (fun _ => 0)
      (fun _ => 0) (fun _ => 0)).2.2.1⟩

/-- Every entry of the zero vector is a valid uniform draw. -/
theorem validNoise_zero {n : ℕ} : ValidNoise (0 : Vec n) :=
  fun _ => ⟨le_refl 0, by norm_num⟩

/-- Claim C10: with the training flag false, the forward pass is a
deterministic function of the tokens and parameters: any two families of
valid dropout draws give identical predictions, for both cell kinds and
any batch-norm configuration, because every dropout site runs at
effective keep-probability `tf.where(False, kp, 1.0) = 1`. -/
theorem inference_forward_deterministic {B T V E H HH EH : ℕ} (ln : Bool)
    (p1 : LSTMParams E H) (p2 : LSTMParams H H)
    (q1 : HyperParams E H HH EH) (q2 : HyperParams H H HH EH)
    (emb : Matrix (Fin V) (Fin E) ℝ) (w : Matrix (Fin V) (Fin H) ℝ) (bOut : Vec V)
    (bnD : Option ℝ) (bn : BNState V) (kp : ℝ) (toks : Fin B → ℕ → Fin V)
    (ns ns' : Noises B E H ((stackTwo (customCell ln p1) (customCell ln p2)).N))
    (ms ms' : Noises B E H ((stackTwo (hyperCell ln q1) (hyperCell ln q2)).N))
    (hns : ValidNoises _ ns) (hns' : ValidNoises _ ns')
    (hms : ValidNoises _ ms) (hms' : ValidNoises _ ms') :
    forward (T := T) (stackTwo (customCell ln p1) (customCell ln p2))
        emb w bOut bnD bn kp false toks ns
      = forward (T := T) (stackTwo (customCell ln p1) (customCell ln p2))
        emb w bOut bnD bn kp false toks ns'
    ∧ forward (T := T) (stackTwo (hyperCell ln q1) (hyperCell ln q2))
        emb w bOut bnD bn kp false toks ms
      = forward (T := T) (stackTwo (hyperCell ln q1) (hyperCell ln q2))
        emb w bOut bnD bn kp false toks ms' :=
  ⟨forward_effkp_one_indep _
      (stackTwo_noise_free _ _ (customCell_noise_free ln p1) (customCell_noise_free ln p2))
      emb w bOut bnD bn kp kp false false toks ns ns' hns hns' rfl rfl (Or.inr rfl),
   forward_effkp_one_indep _
      (stackTwo_noise_free _ _ (hyperCell_noise_free ln q1) (hyperCell_noise_free ln q2))
      emb w bOut bnD bn kp kp false false toks ms ms' hms hms' rfl rfl (Or.inr rfl)⟩

theorem zeroNoisesC_valid (ln : Bool) (p1 p2 : LSTMParams 1 1) :
    ValidNoises (stackTwo (customCell ln p1) (customCell ln p2)) zeroNoisesC :=
  fun _ _ => ⟨validNoise_zero, ⟨validNoise_zero, validNoise_zero⟩, validNoise_zero⟩

theorem zeroNoisesH_valid (ln : Bool) (q1 q2 : HyperParams 1 1 1 1) :
    ValidNoises (stackTwo (hyperCell ln q1) (hyperCell ln q2)) zeroNoisesH :=
  fun _ _ => ⟨validNoise_zero, ⟨⟨validNoise_zero, validNoise_zero⟩,
    ⟨validNoise_zero, validNoise_zero⟩⟩, validNoise_zero⟩

/-- Witness for C10: concrete deterministic inference passes in dimension
one with all-zero draws on both sides. -/
theorem inference_forward_deterministic_witness :
    forward (T := 1) (stackTwo (customCell false (zeroLSTMParams 1 1))
        (customCell false (zeroLSTMParams 1 1)))
        (0 : Matrix (Fin 1) (Fin 1) ℝ) (0 : Matrix (Fin 1) (Fin 1) ℝ) 0
        none (bnDefault 1) (1 / 2) false (fun _ _ => 0) zeroNoisesC
      = forward (T := 1) (stackTwo (customCell false (zeroLSTMParams 1 1))
        (customCell false (zeroLSTMParams 1 1)))
        (0 : Matrix (Fin 1) (Fin 1) ℝ) (0 : Matrix (Fin 1) (Fin 1) ℝ) 0
        none (bnDefault 1) (1 / 2) false (fun _ _ => 0) zeroNoisesC :=
  (inference_forward_deterministic false (zeroLSTMParams 1 1) (zeroLSTMParams 1 1)
    (zeroHyperParams 1 1 1 1) (zeroHyperParams 1 1 1 1)
    0 0 0 none (bnDefault 1) (1 / 2) (fun _ _ => 0)
    zeroNoisesC zeroNoisesC zeroNoisesH zeroNoisesH
    (zeroNoisesC_valid false _ _) (zeroNoisesC_valid false _ _)
    (zeroNoisesH_valid false _ _) (zeroNoisesH_valid false _ _)).1

/-- The effective keep-probability is 1 whenever the configured
keep-probability is 1, in either mode. -/
theorem effKeepProb_one (b : Bool) : effKeepProb b 1 = 1 := by
  cases b <;> rfl

theorem cex_layer1 :
    customStep false 1 (0 : Vec 1) (zeroLSTMParams 1 1) (0 : Vec 1) 0 0 = (0, (0, 0)) := by
  have hpre : ∀ g, gatePre (zeroLSTMParams 1 1) (0 : Vec 1) (0 : Vec 1) g
      + (zeroLSTMParams 1 1).b g = 0 := by
    intro g
    simp [gatePre, zeroLSTMParams, Matrix.mulVec_zero]
  refine Prod.ext ?_ (Prod.ext ?_ ?_) <;>
    funext i <;>
    simp [customStep, gateOutput, hpre, dropout, tanhV, sigmoidV, Real.tanh_zero]

theorem sigmoid_zero : sigmoid 0 = 1 / 2 := by
  unfold sigmoid
  rw [neg_zero, Real.exp_zero]
  norm_num

theorem cex_layer2 :
    customStep false 1 (0 : Vec 1) cexP2 0 0 0 = (cexYVec, (cexYVec, cexCVec)) := by
  have hc : (customStep false 1 (0 : Vec 1) cexP2 0 0 0).2.2 = cexCVec := by
    funext i
    simp [customStep, gateOutput, gatePre, cexP2, dropout, sigmoidV, tanhV,
      sigmoid_zero, Matrix.mulVec_zero, cexCVec, cexC]
    ring
  have hy : (customStep false 1 (0 : Vec 1) cexP2 0 0 0).1 = cexYVec := by
    funext i
    simp [customStep, gateOutput, gatePre, cexP2, dropout, sigmoidV, tanhV,
      sigmoid_zero, Matrix.mulVec_zero, cexYVec, cexY]
    ring_nf
  exact Prod.ext hy (Prod.ext hy hc)

theorem cex_step :
    cexCell.step 1 0 0 cexCell.zeroState = (cexYVec, ((0, 0), (cexYVec, cexCVec))) := by
  show ((customStep false 1 (0 : Vec 1) cexP2
        ((customStep false 1 (0 : Vec 1) (zeroLSTMParams 1 1) 0 0 0).1) 0 0).1,
      ((customStep false 1 (0 : Vec 1) (zeroLSTMParams 1 1) 0 0 0).2,
       (customStep false 1 (0 : Vec 1) cexP2
        ((customStep false 1 (0 : Vec 1) (zeroLSTMParams 1 1) 0 0 0).1) 0 0).2))
      = (cexYVec, ((0, 0), (cexYVec, cexCVec)))
  simp only [cex_layer1, cex_layer2]

theorem cex_out (inp : ℕ → Vec 1) (hinp : inp 0 = 0) (noi : ℕ → Vec 1 × Vec 1)
    (hnoi : noi 0 = 0) : outAt cexCell 1 inp noi 0 = cexYVec := by
  unfold outAt
  rw [hnoi, hinp]
  rw [show stateIter cexCell 1 inp noi 0 = cexCell.zeroState from rfl]
  rw [cex_step]

/-- Training-mode batch norm over a single merged row normalizes the row
to its own mean, so only the learned shift remains. -/
theorem batchNorm_singleton_train {m : ℕ} (bn : BNState m)
    (xs : Fin 1 × Fin 1 → Vec m) (j : Fin 1 × Fin 1) (i : Fin m) :
    batchNorm bn true xs j i = bn.beta i := by
  have hj : j = ((0 : Fin 1), (0 : Fin 1)) := Subsingleton.elim _ _
  subst hj
  have hm : batchMean xs i = xs ((0 : Fin 1), (0 : Fin 1)) i := by
    show (∑ j, xs j i) / (Fintype.card (Fin 1 × Fin 1) : ℝ) = _
    simp [Fintype.sum_prod_type, Fin.sum_univ_one]
  simp [batchNorm, hm]

/-- Inference-mode batch norm at the default moving statistics divides by
`√(1 + ε)`. -/
theorem batchNorm_default_infer {I : Type} [Fintype I] {m : ℕ}
    (xs : I → Vec m) (j : I) (i : Fin m) :
    batchNorm (bnDefault m) false xs j i = xs j i / Real.sqrt (1 + bnEps) := by
  simp [batchNorm, bnDefault]

theorem cex_train :
    forward (T := 1) cexCell (0 : Matrix (Fin 2) (Fin 1) ℝ) cexW 0 (some (95 / 100))
        (bnDefault 2) 1 true (fun _ _ => 0) zeroNoisesC 0 0 0 = 1 / 2 := by
  have hrows : (fun bt : Fin 1 × Fin 1 =>
      dropout (effKeepProb true 1) (zeroNoisesC.uOut bt.1 bt.2.val)
        (outAt cexCell (effKeepProb true 1)
          (unrollInputs (0 : Matrix (Fin 2) (Fin 1) ℝ) (effKeepProb true 1)
            (fun _ _ => 0) zeroNoisesC.uEmb bt.1)
          (zeroNoisesC.uCell bt.1) bt.2.val))
      = fun _ => cexYVec := by
    funext bt
    have h2 : bt.2 = 0 := Subsingleton.elim _ _
    simp only [zeroNoisesC, effKeepProb_one, h2, Fin.val_zero]
    rw [dropout_one _ _ validNoise_zero]
    refine cex_out _ ?_ _ rfl
    funext i
    simp [unrollInputs, dropout, embedRow]
  simp only [forward]
  rw [hrows]
  have hL : projectLogits (some (95 / 100 : ℝ)) (bnDefault 2) true cexW (0 : Vec 2)
      (fun _ : Fin 1 × Fin 1 => cexYVec) ((0 : Fin 1), (0 : Fin 1))
      = fun _ => (0 : ℝ) := by
    funext v
    show batchNorm (bnDefault 2) true
      (fun j : Fin 1 × Fin 1 => fullConnected cexW 0 false cexYVec) ((0 : Fin 1), (0 : Fin 1)) v = 0
    rw [batchNorm_singleton_train]
    rfl
  rw [hL]
  simp [softmax, Fin.sum_univ_two, Real.exp_zero]

theorem cex_infer :
    forward (T := 1) cexCell (0 : Matrix (Fin 2) (Fin 1) ℝ) cexW 0 (some (95 / 100))
        (bnDefault 2) 1 false (fun _ _ => 0) zeroNoisesC 0 0 0
      = Real.exp (cexY / Real.sqrt (1 + bnEps))
        / (Real.exp (cexY / Real.sqrt (1 + bnEps)) + 1) := by
  have hrows : (fun bt : Fin 1 × Fin 1 =>
      dropout (effKeepProb false 1) (zeroNoisesC.uOut bt.1 bt.2.val)
        (outAt cexCell (effKeepProb false 1)
          (unrollInputs (0 : Matrix (Fin 2) (Fin 1) ℝ) (effKeepProb false 1)
            (fun _ _ => 0) zeroNoisesC.uEmb bt.1)
          (zeroNoisesC.uCell bt.1) bt.2.val))
      = fun _ => cexYVec := by
    funext bt
    have h2 : bt.2 = 0 := Subsingleton.elim _ _
    simp only [zeroNoisesC, effKeepProb_one, h2, Fin.val_zero]
    rw [dropout_one _ _ validNoise_zero]
    refine cex_out _ ?_ _ rfl
    funext i
    simp [unrollInputs, dropout, embedRow]
  simp only [forward]
  rw [hrows]
  have hfc : ∀ v : Fin 2, fullConnected cexW (0 : Vec 2) false cexYVec v
      = if v = 0 then cexY else 0 := by
    intro v
    by_cases hv : v = 0 <;>
      simp [fullConnected, cexW, Matrix.mulVec, Matrix.dotProduct, Fin.sum_univ_one, cexYVec, cexY, hv]
  have hL : projectLogits (some (95 / 100 : ℝ)) (bnDefault 2) false cexW (0 : Vec 2)
      (fun _ : Fin 1 × Fin 1 => cexYVec) ((0 : Fin 1), (0 : Fin 1))
      = fun v => (if v = 0 then cexY else 0) / Real.sqrt (1 + bnEps) := by
    funext v
    show batchNorm (bnDefault 2) false
      (fun j : Fin 1 × Fin 1 => fullConnected cexW 0 false cexYVec) ((0 : Fin 1), (0 : Fin 1)) v = _
    rw [batchNorm_default_infer, hfc v]
  rw [hL]
  simp [softmax, Fin.sum_univ_two, Real.exp_zero]

theorem cexY_pos : 0 < cexY := by
  have h1 : 0 < Real.tanh 1 := by
    rw [Real.tanh_eq_sinh_div_cosh]
    exact div_pos (Real.sinh_pos_iff.2 one_pos) (Real.cosh_pos 1)
  have h2 : 0 < Real.tanh (Real.tanh 1 / 2) := by
    rw [Real.tanh_eq_sinh_div_cosh]
    exact div_pos (Real.sinh_pos_iff.2 (by positivity)) (Real.cosh_pos _)
  unfold cexY
  positivity

/-- Counterexample to C5 as stated: on a model with batch normalization
configured, the training-mode forward at keep-probability 1 and the
inference-mode forward disagree on a concrete batch — training mode
normalizes by batch statistics, inference mode by the moving statistics —
even though every dropout site is the identity in both runs. -/
theorem dropout_mode_equiv_claim_false : ¬ dropoutModeEquivClaim := by
  intro hcl
  have heq := hcl 1 1 2 1 1 false (zeroLSTMParams 1 1) cexP2 0 cexW 0
    (some (95 / 100)) (bnDefault 2) 1 (fun _ _ => 0) zeroNoisesC zeroNoisesC
    (zeroNoisesC_valid false _ _) (zeroNoisesC_valid false _ _)
  have h0 := congrFun (congrFun (congrFun heq 0) 0) 0
  rw [cex_train, cex_infer] at h0
  have ha : 0 < cexY / Real.sqrt (1 + bnEps) :=
    div_pos cexY_pos (Real.sqrt_pos.2 (by norm_num [bnEps]))
  have hea : 1 < Real.exp (cexY / Real.sqrt (1 + bnEps)) := by
    calc 1 = Real.exp 0 := Real.exp_zero.symm
    _ < _ := Real.exp_lt_exp.2 ha
  have hpos : (0 : ℝ) < Real.exp (cexY / Real.sqrt (1 + bnEps)) + 1 := by positivity
  rw [eq_div_iff (ne_of_gt hpos)] at h0
  linarith

/-- Claim C5 (amended): provided batch normalization is not configured,
the training-mode forward pass with keep-probability 1 is numerically
identical to the inference-mode forward pass with any configured
keep-probability, for both cell kinds and all valid dropout draws: every
dropout site runs at effective keep-probability 1 and is the identity. -/
theorem dropout_mode_equiv_no_batchnorm {B T V E H HH EH : ℕ} (ln : Bool)
    (p1 : LSTMParams E H) (p2 : LSTMParams H H)
    (q1 : HyperParams E H HH EH) (q2 : HyperParams H H HH EH)
    (emb : Matrix (Fin V) (Fin E) ℝ) (w : Matrix (Fin V) (Fin H) ℝ) (bOut : Vec V)
    (bn : BNState V) (p : ℝ) (toks : Fin B → ℕ → Fin V)
    (ns ns' : Noises B E H ((stackTwo (customCell ln p1) (customCell ln p2)).N))
    (ms ms' : Noises B E H ((stackTwo (hyperCell ln q1) (hyperCell ln q2)).N))
    (hns : ValidNoises _ ns) (hns' : ValidNoises _ ns')
    (hms : ValidNoises _ ms) (hms' : ValidNoises _ ms') :
    forward (T := T) (stackTwo (customCell ln p1) (customCell ln p2))
        emb w bOut none bn 1 true toks ns
      = forward (T := T) (stackTwo (customCell ln p1) (customCell ln p2))
        emb w bOut none bn p false toks ns'
    ∧ forward (T := T) (stackTwo (hyperCell ln q1) (hyperCell ln q2))
        emb w bOut none bn 1 true toks ms
      = forward (T := T) (stackTwo (hyperCell ln q1) (hyperCell ln q2))
        emb w bOut none bn p false toks ms' :=
  ⟨forward_effkp_one_indep _
      (stackTwo_noise_free _ _ (customCell_noise_free ln p1) (customCell_noise_free ln p2))
      emb w bOut none bn 1 p true false toks ns ns' hns hns' rfl rfl (Or.inl rfl),
   forward_effkp_one_indep _
      (stackTwo_noise_free _ _ (hyperCell_noise_free ln q1) (hyperCell_noise_free ln q2))
      emb w bOut none bn 1 p true false toks ms ms' hms hms' rfl rfl (Or.inl rfl)⟩

/-- Witness for the amended C5 at concrete all-zero parameters,
keep-probability 1/2 and all-zero draws. -/
theorem dropout_mode_equiv_no_batchnorm_witness :
    forward (T := 1) (stackTwo (customCell false (zeroLSTMParams 1 1))
        (customCell false (zeroLSTMParams 1 1)))
        (0 : Matrix (Fin 1) (Fin 1) ℝ) 0 0 none (bnDefault 1) 1 true
        (fun _ _ => 0) zeroNoisesC
      = forward (T := 1) (stackTwo (customCell false (zeroLSTMParams 1 1))
        (customCell false (zeroLSTMParams 1 1)))
        (0 : Matrix (Fin 1) (Fin 1) ℝ) 0 0 none (bnDefault 1) (1 / 2) false
        (fun _ _ => 0) zeroNoisesC :=
  (dropout_mode_equiv_no_batchnorm false (zeroLSTMParams 1 1) (zeroLSTMParams 1 1)
    (zeroHyperParams 1 1 1 1) (zeroHyperParams 1 1 1 1) 0 0 0 (bnDefault 1) (1 / 2)
    (fun _ _ => 0) zeroNoisesC zeroNoisesC zeroNoisesH zeroNoisesH
    (zeroNoisesC_valid false _ _) (zeroNoisesC_valid false _ _)
    (zeroNoisesH_valid false _ _) (zeroNoisesH_valid false _ _)).1

end LSTMCell
